import Mathlib

/-!
A shallow embedding of the `leaderboard-api` Flask service
(`controllers/apps_controller.py`, `controllers/players_controller.py`,
`controllers/scores_controller.py`).

Modelling choices:
* The Mongo database is a record of four collections, each a list of
  documents in insertion ("natural") order.  `find_one(filter)` is
  `List.find?`, `count_documents` is `length ∘ filter`, `distinct` is
  `dedup ∘ map`.
* `find(...).sort('k', dir)` is a stable sort over natural order
  (`List.insertionSort`), matching the behaviour of an unindexed
  collection scan; `.limit(n)` follows Mongo semantics where
  `limit(0)` means "no limit".
* `uuid.uuid4()` and `datetime.now()` are nondeterministic inputs and
  are passed to the operations as explicit parameters (`newId`, `now`);
  ISO timestamp strings are modelled as `Nat` (ISO order = numeric order).
* The single `db` availability state models `MongoConnectionHolder.get_db()`
  for the whole request (`none` = store unreachable), so the inner
  `validate_api_key` sees the same availability as the handler.
* HTTP replies are `Except ErrorR payload`; an `ErrorR` carries the
  status code and the `error` message string.
-/

structure App where
  id : String
  name : String
  api_key : String
  created_at : Nat
deriving Repr, DecidableEq

structure Leaderboard where
  id : String
  app_id : String
  name : String
  sort_order : String
  created_at : Nat
deriving Repr, DecidableEq

structure Player where
  id : String
  app_id : String
  device_id : String
  user_id : Option String
  username : String
  avatar_url : Option String
  created_at : Nat
  linked_at : Option Nat
deriving Repr, DecidableEq

structure Score where
  id : String
  leaderboard_id : String
  player_id : String
  score : Int
  metadata : List (String × String)
  created_at : Nat
deriving Repr, DecidableEq

structure DB where
  apps : List App
  leaderboards : List Leaderboard
  players : List Player
  scores : List Score
deriving Repr, DecidableEq

/-- An error reply: HTTP status code and the `error` message. -/
structure ErrorR where
  code : Nat
  msg : String
deriving Repr, DecidableEq

/-- Mongo `cursor.limit n`: `limit 0` means "no limit". -/
def mongoLimit (n : Nat) (xs : List α) : List α :=
  if n = 0 then xs else xs.take n

/-- The comparison used by `find(...).sort('score', dir)`:
`dir = -1` sorts descending (higher first), anything else ascending. -/
def scoreRel (dir : Int) (a b : Score) : Prop :=
  if dir = -1 then b.score ≤ a.score else a.score ≤ b.score

instance (dir : Int) : DecidableRel (scoreRel dir) := fun a b =>
  inferInstanceAs (Decidable (if dir = -1 then b.score ≤ a.score else a.score ≤ b.score))

instance (dir : Int) : IsTotal Score (scoreRel dir) := by
  constructor
  intro a b
  unfold scoreRel
  split
  case isTrue => exact Int.le_total b.score a.score
  case isFalse => exact Int.le_total a.score b.score

instance (dir : Int) : IsTrans Score (scoreRel dir) := by
  constructor
  intro a b c hab hbc
  unfold scoreRel at *
  split at hab
  case isTrue h => simpa [h] using le_trans (by simpa [h] using hbc) hab
  case isFalse h => simpa [h] using le_trans hab (by simpa [h] using hbc)

/-- Runs `find(...).sort('score', dir)` over the natural-order list `xs`. -/
def sortScores (dir : Int) (xs : List Score) : List Score :=
  xs.insertionSort (scoreRel dir)

/-- The comparison used by `find(...).sort('created_at', -1)` (newest first). -/
def createdDescRel (a b : Score) : Prop := b.created_at ≤ a.created_at

instance : DecidableRel createdDescRel := fun a b =>
  inferInstanceAs (Decidable (b.created_at ≤ a.created_at))

instance : IsTotal Score createdDescRel :=
  ⟨fun a b => Nat.le_total b.created_at a.created_at⟩

instance : IsTrans Score createdDescRel :=
  ⟨fun _ _ _ hab hbc => Nat.le_trans hbc hab⟩

/-- Embeds `apps_controller.validate_api_key`: `None` when the store is down,
otherwise `find_one({'api_key': api_key})`. -/
def validate_api_key (db? : Option DB) (api_key : String) : Option App :=
  match db? with
  | none => none
  | some db => db.apps.find? (fun a => a.api_key == api_key)

/-- The authentication prologue shared verbatim by the score and player
handlers: missing key → 401, `validate_api_key` failure → 401, then the
explicit store-availability check → 500. -/
def withAuth (db? : Option DB) (apiKey? : Option String)
    (f : DB → App → Except ErrorR α) : Except ErrorR α :=
  match apiKey? with
  | none => .error ⟨401, "API key is required"⟩
  | some key =>
    match validate_api_key db? key with
    | none => .error ⟨401, "Invalid API key"⟩
    | some app =>
      match db? with
      | none => .error ⟨500, "Could not connect to the database"⟩
      | some db => f db app

/-- The request body of `submit_score` (each key may be absent). -/
structure SubmitData where
  leaderboard_id : Option String
  player_id : Option String
  score : Option Int
  metadata : Option (List (String × String))
deriving Repr, DecidableEq

/-- Embeds `scores_controller.submit_score`.  Returns the reply together with the
store state after the call (`.2`); only the success path appends a record. -/
def submit_score (db? : Option DB) (apiKey? : Option String)
    (data? : Option SubmitData) (newId : String) (now : Nat) :
    Except ErrorR Score × Option DB :=
  match apiKey? with
  | none => (.error ⟨401, "API key is required"⟩, db?)
  | some key =>
    match validate_api_key db? key with
    | none => (.error ⟨401, "Invalid API key"⟩, db?)
    | some app =>
      match db? with
      | none => (.error ⟨500, "Could not connect to the database"⟩, db?)
      | some db =>
        match data? with
        | none => (.error ⟨400, "leaderboard_id, player_id, and score are required"⟩, some db)
        | some data =>
          match data.leaderboard_id, data.player_id, data.score with
          | some lbId, some pId, some v =>
            match db.leaderboards.find? (fun l => l.id == lbId && l.app_id == app.id) with
            | none => (.error ⟨404, "Leaderboard not found"⟩, some db)
            | some _ =>
              match db.players.find? (fun p => p.id == pId && p.app_id == app.id) with
              | none => (.error ⟨404, "Player not found"⟩, some db)
              | some _ =>
                let s : Score := ⟨newId, lbId, pId, v, data.metadata.getD [], now⟩
                (.ok s, some { db with scores := db.scores ++ [s] })
          | _, _, _ =>
            (.error ⟨400, "leaderboard_id, player_id, and score are required"⟩, some db)

/-- Embeds `scores_controller.get_leaderboard_sort_order`: `-1` for `'desc'`
(also the default when the leaderboard is missing), `1` otherwise. -/
def get_leaderboard_sort_order (db : DB) (leaderboard_id : String) : Int :=
  match db.leaderboards.find? (fun l => l.id == leaderboard_id) with
  | some lb => if lb.sort_order == "desc" then -1 else 1
  | none => -1

/-- One entry of a ranked listing: `{'rank': ..., 'score': ..., 'player': ...}`
where the player is looked up by `find_one({'_id': score['player_id']})`. -/
structure RankedEntry where
  rank : Nat
  score : Score
  player : Option Player
deriving Repr, DecidableEq

/-- The `for idx, score in enumerate(...)` enrichment loop: entry `idx` gets
rank `r + idx` (callers pass the 1-based start). -/
def enrichRanked (db : DB) : Nat → List Score → List RankedEntry
  | _, [] => []
  | r, s :: rest =>
    ⟨r, s, db.players.find? (fun p => p.id == s.player_id)⟩ :: enrichRanked db (r + 1) rest

/-- Success payload of `get_top_scores`. -/
structure TopPayload where
  leaderboard : Leaderboard
  total_scores : Nat
  scores : List RankedEntry
deriving Repr, DecidableEq

/-- Embeds `scores_controller.get_top_scores` (the `limit` query parameter is the
`limit` argument; the code clamps it with `min(limit, 100)`). -/
def get_top_scores (db? : Option DB) (apiKey? : Option String)
    (leaderboard_id : String) (limit : Nat) : Except ErrorR TopPayload :=
  withAuth db? apiKey? fun db app =>
    match db.leaderboards.find? (fun l => l.id == leaderboard_id && l.app_id == app.id) with
    | none => .error ⟨404, "Leaderboard not found"⟩
    | some lb =>
      let lim := min limit 100
      let dir := get_leaderboard_sort_order db leaderboard_id
      let top := mongoLimit lim
        (sortScores dir (db.scores.filter (fun s => s.leaderboard_id == leaderboard_id)))
      .ok ⟨lb,
           (db.scores.filter (fun s => s.leaderboard_id == leaderboard_id)).length,
           enrichRanked db 1 top⟩

/-- Success payload of `get_player_rank`. -/
structure RankPayload where
  player : Player
  best_score : Score
  rank : Nat
  total_players : Nat
  nearby : List RankedEntry
deriving Repr, DecidableEq

/-- Embeds `scores_controller.get_player_rank` (the `nearby` query parameter is the
`nearby` argument; the code clamps it with `min(nearby, 20)`).  The python
slice `all[start:stop]` is `(all.drop start).take (stop - start)`; the
`player_position is None` case would raise in python and is a 500 here. -/
def get_player_rank (db? : Option DB) (apiKey? : Option String)
    (leaderboard_id player_id : String) (nearby : Nat) : Except ErrorR RankPayload :=
  withAuth db? apiKey? fun db app =>
    match db.leaderboards.find? (fun l => l.id == leaderboard_id && l.app_id == app.id) with
    | none => .error ⟨404, "Leaderboard not found"⟩
    | some _ =>
      match db.players.find? (fun p => p.id == player_id && p.app_id == app.id) with
      | none => .error ⟨404, "Player not found"⟩
      | some player =>
        let nearbyN := min nearby 20
        let dir := get_leaderboard_sort_order db leaderboard_id
        match mongoLimit 1 (sortScores dir (db.scores.filter
            (fun s => s.leaderboard_id == leaderboard_id && s.player_id == player_id))) with
        | [] => .error ⟨404, "Player has no scores on this leaderboard"⟩
        | best :: _ =>
          let better :=
            if dir = -1 then
              (db.scores.filter (fun s =>
                s.leaderboard_id == leaderboard_id && best.score < s.score)).length
            else
              (db.scores.filter (fun s =>
                s.leaderboard_id == leaderboard_id && s.score < best.score)).length
          let total := ((db.scores.filter
            (fun s => s.leaderboard_id == leaderboard_id)).map (fun s => s.player_id)).dedup.length
          let allSorted := sortScores dir (db.scores.filter
            (fun s => s.leaderboard_id == leaderboard_id))
          match allSorted.findIdx? (fun s => s.player_id == player_id) with
          | none => .error ⟨500, "Internal server error"⟩
          | some pos =>
            let start := pos - nearbyN
            let stop := min allSorted.length (pos + nearbyN + 1)
            .ok ⟨player, best, better + 1, total,
                 enrichRanked db (start + 1) ((allSorted.drop start).take (stop - start))⟩

/-- One entry of the history listing: `{'score': ..., 'leaderboard': ...}`. -/
structure HistoryEntry where
  score : Score
  leaderboard : Option Leaderboard
deriving Repr, DecidableEq

/-- Success payload of `get_player_scores`. -/
structure HistoryPayload where
  player : Player
  scores : List HistoryEntry
deriving Repr, DecidableEq

/-- Embeds `scores_controller.get_player_scores`: the player's scores restricted to
the authenticated app's leaderboards, newest first. -/
def get_player_scores (db? : Option DB) (apiKey? : Option String)
    (player_id : String) : Except ErrorR HistoryPayload :=
  withAuth db? apiKey? fun db app =>
    match db.players.find? (fun p => p.id == player_id && p.app_id == app.id) with
    | none => .error ⟨404, "Player not found"⟩
    | some player =>
      let appLbs := db.leaderboards.filter (fun l => l.app_id == app.id)
      let mine := (db.scores.filter (fun s =>
        s.player_id == player_id && (appLbs.map (fun l => l.id)).contains s.leaderboard_id
        )).insertionSort createdDescRel
      .ok ⟨player, mine.map (fun s => ⟨s, appLbs.find? (fun l => l.id == s.leaderboard_id)⟩)⟩

/-- The request body of `register_player`. -/
structure RegData where
  username : Option String
  device_id : Option String
  avatar_url : Option String
deriving Repr, DecidableEq

/-- Reply of `register_player`: 200 with the existing player, 201 with the
newly created player, or an error. -/
inductive RegReply where
  | already (p : Player)
  | created (p : Player)
  | failure (e : ErrorR)
deriving Repr, DecidableEq

/-- Embeds `players_controller.register_player`.  Returns the reply together with the
store state after the call; only the created path appends a player. -/
def register_player (db? : Option DB) (apiKey? : Option String)
    (data? : Option RegData) (newId : String) (now : Nat) :
    RegReply × Option DB :=
  match apiKey? with
  | none => (.failure ⟨401, "API key is required"⟩, db?)
  | some key =>
    match validate_api_key db? key with
    | none => (.failure ⟨401, "Invalid API key"⟩, db?)
    | some app =>
      match db? with
      | none => (.failure ⟨500, "Could not connect to the database"⟩, db?)
      | some db =>
        match data? with
        | none => (.failure ⟨400, "Username is required"⟩, some db)
        | some data =>
          match data.username with
          | none => (.failure ⟨400, "Username is required"⟩, some db)
          | some username =>
            match data.device_id with
            | none => (.failure ⟨400, "device_id is required"⟩, some db)
            | some dev =>
              if dev = "" then (.failure ⟨400, "device_id is required"⟩, some db)
              else
                match db.players.find? (fun p =>
                    p.app_id == app.id && p.device_id == dev) with
                | some p => (.already p, some db)
                | none =>
                  let p : Player :=
                    ⟨newId, app.id, dev, none, username, data.avatar_url, now, none⟩
                  (.created p, some { db with players := db.players ++ [p] })

/-! Concrete stores used by the scenario checks below. -/

/-- App `A` with API key `keyA`. -/
def appA : App := ⟨"A", "GameA", "keyA", 0⟩

/-- A descending leaderboard `L` of app `A`. -/
def lbL : Leaderboard := ⟨"L", "A", "Daily High Scores", "desc", 0⟩

/-- The §8 scenario store: scores `[100, 90, 100, 80]` submitted in that
order by players `p1, p2, p3, p4` on the descending leaderboard `L`. -/
def dbScenario : DB :=
  ⟨[appA], [lbL],
   [⟨"p1", "A", "d1", none, "P1", none, 0, none⟩,
    ⟨"p2", "A", "d2", none, "P2", none, 0, none⟩,
    ⟨"p3", "A", "d3", none, "P3", none, 0, none⟩,
    ⟨"p4", "A", "d4", none, "P4", none, 0, none⟩],
   [⟨"s1", "L", "p1", 100, [], 0⟩,
    ⟨"s2", "L", "p2", 90, [], 1⟩,
    ⟨"s3", "L", "p3", 100, [], 2⟩,
    ⟨"s4", "L", "p4", 80, [], 3⟩]⟩

/-- A store where player `pA` holds two scores (10 and 9) on `L` and
player `pB` holds one (8). -/
def dbMulti : DB :=
  ⟨[appA], [lbL],
   [⟨"pA", "A", "dA", none, "PA", none, 0, none⟩,
    ⟨"pB", "A", "dB", none, "PB", none, 0, none⟩],
   [⟨"t1", "L", "pA", 10, [], 0⟩,
    ⟨"t2", "L", "pB", 8, [], 1⟩,
    ⟨"t3", "L", "pA", 9, [], 2⟩]⟩

/-- Two tenants holding leaderboards with the same name; score `crossScore`
belongs to app `A`'s leaderboard. -/
def appB : App := ⟨"B", "GameB", "keyB", 0⟩

/-- App `B`'s leaderboard, same name as app `A`'s. -/
def lbLB : Leaderboard := ⟨"LB", "B", "Daily High Scores", "desc", 0⟩

/-- The score submitted under app `A`'s leaderboard `L`. -/
def crossScore : Score := ⟨"sA", "L", "pa1", 50, [], 0⟩

/-- The two-tenant store. -/
def dbTenants : DB :=
  ⟨[appA, appB], [lbL, lbLB],
   [⟨"pa1", "A", "da", none, "PA1", none, 0, none⟩,
    ⟨"pb1", "B", "db", none, "PB1", none, 0, none⟩],
   [crossScore, ⟨"sB", "LB", "pb1", 60, [], 1⟩]⟩

/-- A store holding only app `A`, for the registration scenario. -/
def dbEmpty : DB := ⟨[appA], [], [], []⟩

/-- A store whose leaderboard `L` holds 101 score records. -/
def dbMany : DB :=
  ⟨[appA], [lbL], [⟨"pz", "A", "dz", none, "PZ", none, 0, none⟩],
   (List.range 101).map (fun i => ⟨"s", "L", "pz", Int.ofNat i, [], i⟩)⟩

/-- The status code of a reply, when it is an error. -/
def errCode (r : Except ErrorR α) : Option Nat :=
  match r with
  | .error e => some e.code
  | .ok _ => none

/-- C1 counterexample: on the §8 scenario store, `get_top_scores` annotates the
four records with the positional ranks `[1, 2, 3, 4]`, not the tie-aware
competition ranks `[1, 1, 3, 4]` the claim states. -/
theorem topScores_scenario_ranks_not_tie_aware :
    ((get_top_scores (some dbScenario) (some "keyA") "L" 4).toOption.map
      (fun p => p.scores.map RankedEntry.rank)) = some [1, 2, 3, 4] ∧
    some [1, 2, 3, 4] ≠ some [(1 : Nat), 1, 3, 4] := by decide

/-- C1 amended: on the scenario store (`desc`, scores `[100, 90, 100, 80]`
submitted by `p1, p2, p3, p4`), `TopScores(limit = 4)` returns the values
`[100, 100, 90, 80]` in player order `[p1, p3, p2, p4]`, annotated with the
positional ranks `[1, 2, 3, 4]` (rank = 1-based position, ties not merged). -/
theorem topScores_scenario_positional :
    ((get_top_scores (some dbScenario) (some "keyA") "L" 4).toOption.map
      (fun p => (p.scores.map RankedEntry.rank,
                 p.scores.map (fun e => e.score.score),
                 p.scores.map (fun e => e.score.player_id)))) =
      some ([1, 2, 3, 4], [100, 100, 90, 80], ["p1", "p3", "p2", "p4"]) := by decide

/-- C2 counterexample: player `pA` holds two scores on leaderboard `L`, and the
nearby window returned for `pA` contains both of them — two entries for the
same player, refuting "the window contains at most one entry per player". -/
theorem window_contains_duplicate_player :
    (dbMulti.scores.filter (fun s =>
      s.leaderboard_id == "L" && s.player_id == "pA")).length = 2 ∧
    ((get_player_rank (some dbMulti) (some "keyA") "L" "pA" 5).toOption.map
      (fun p => p.nearby.countP (fun e => e.score.player_id == "pA"))) = some 2 := by decide

/-- C5 counterexample: with the store unavailable and an API key supplied,
`submit_score` reports 401 Unauthorized ("Invalid API key"), not a
5xx Internal error. -/
theorem store_down_reported_as_unauthorized :
    (submit_score none (some "keyA")
      (some ⟨some "L", some "p1", some 5, none⟩) "sx" 0).1 =
      Except.error ⟨401, "Invalid API key"⟩ ∧ (401 : Nat) ≠ 500 :=
  ⟨rfl, by decide⟩

/-- C5 amended: whenever the Score Store is unavailable, `SubmitScore`,
`TopScores`, `PlayerRank` and `PlayerHistory` all return status 401
(Unauthorized) — missing key or, because `validate_api_key` returns `None`
when the store is down, "Invalid API key" — never the Internal 5xx error. -/
theorem store_down_always_unauthorized (apiKey? : Option String)
    (data? : Option SubmitData) (newId : String) (now : Nat)
    (lbId pId hpId : String) (lim nb : Nat) :
    errCode (submit_score none apiKey? data? newId now).1 = some 401 ∧
    errCode (get_top_scores none apiKey? lbId lim) = some 401 ∧
    errCode (get_player_rank none apiKey? lbId pId nb) = some 401 ∧
    errCode (get_player_scores none apiKey? hpId) = some 401 := by
  cases apiKey? <;> exact ⟨rfl, rfl, rfl, rfl⟩

/-! Basic lemmas about the enrichment loop and the sort model. -/

theorem enrichRanked_length (db : DB) (r : Nat) (xs : List Score) :
    (enrichRanked db r xs).length = xs.length := by
  induction xs generalizing r with
  | nil => rfl
  | cons s rest ih => simp [enrichRanked, ih]

theorem enrichRanked_map_score (db : DB) (r : Nat) (xs : List Score) :
    (enrichRanked db r xs).map RankedEntry.score = xs := by
  induction xs generalizing r with
  | nil => rfl
  | cons s rest ih => simp [enrichRanked, ih]

theorem enrichRanked_rank_ge (db : DB) (r : Nat) (xs : List Score) :
    ∀ e ∈ enrichRanked db r xs, r ≤ e.rank := by
  induction xs generalizing r with
  | nil => intro e he; cases he
  | cons s rest ih =>
    intro e he
    rcases List.mem_cons.mp he with rfl | he
    · exact le_refl r
    · exact Nat.le_of_succ_le (ih (r + 1) e he)

theorem enrichRanked_rank_pairwise (db : DB) (r : Nat) (xs : List Score) :
    List.Pairwise (· < ·) ((enrichRanked db r xs).map RankedEntry.rank) := by
  induction xs generalizing r with
  | nil => exact List.Pairwise.nil
  | cons s rest ih =>
    refine List.pairwise_cons.mpr ⟨?_, ih (r + 1)⟩
    intro y hy
    rcases List.mem_map.mp hy with ⟨e, he, rfl⟩
    exact Nat.lt_of_succ_le (enrichRanked_rank_ge db (r + 1) rest e he)

theorem sortScores_length (dir : Int) (xs : List Score) :
    (sortScores dir xs).length = xs.length :=
  List.length_insertionSort _ xs

theorem mem_sortScores {dir : Int} {xs : List Score} {s : Score} :
    s ∈ sortScores dir xs ↔ s ∈ xs :=
  List.mem_insertionSort _

theorem mem_mongoLimit {n : Nat} {xs : List α} {a : α} (h : a ∈ mongoLimit n xs) :
    a ∈ xs := by
  unfold mongoLimit at h
  split at h
  · exact h
  · exact List.mem_of_mem_take h

/-- C6: a `submit_score` call that returns an error leaves the store exactly
as it was — no score record is written on any validation-failure path. -/
theorem submit_score_error_no_mutation
    (db? : Option DB) (apiKey? : Option String) (data? : Option SubmitData)
    (newId : String) (now : Nat) (e : ErrorR)
    (h : (submit_score db? apiKey? data? newId now).1 = .error e) :
    (submit_score db? apiKey? data? newId now).2 = db? := by
  unfold submit_score at h ⊢
  cases apiKey? with
  | none => rfl
  | some key =>
    cases hv : validate_api_key db? key with
    | none => simp only [hv]
    | some app =>
      simp only [hv] at h ⊢
      cases db? with
      | none => rfl
      | some db =>
        cases data? with
        | none => rfl
        | some data =>
          obtain ⟨lbId?, pId?, v?, md?⟩ := data
          cases lbId? with
          | none => rfl
          | some lbId =>
            cases pId? with
            | none => rfl
            | some pId =>
              cases v? with
              | none => rfl
              | some v =>
                simp only at h ⊢
                cases hlb : db.leaderboards.find?
                    (fun l => l.id == lbId && l.app_id == app.id) with
                | none => simp only [hlb]
                | some lb =>
                  simp only [hlb] at h ⊢
                  cases hp : db.players.find?
                      (fun p => p.id == pId && p.app_id == app.id) with
                  | none => simp only [hp]
                  | some p =>
                    simp only [hp] at h
                    exact absurd h (by simp)

/-- C6 witness: submitting with an unknown player id fails with 404 and the
store is unchanged. -/
theorem submit_score_error_no_mutation_witness :
    (submit_score (some dbScenario) (some "keyA")
      (some ⟨some "L", some "ghost", some 5, none⟩) "sz" 9).1 =
      Except.error ⟨404, "Player not found"⟩ ∧
    (submit_score (some dbScenario) (some "keyA")
      (some ⟨some "L", some "ghost", some 5, none⟩) "sz" 9).2 = some dbScenario :=
  ⟨rfl, submit_score_error_no_mutation (some dbScenario) (some "keyA")
    (some ⟨some "L", some "ghost", some 5, none⟩) "sz" 9
    ⟨404, "Player not found"⟩ rfl⟩

/-- C8 counterexample: the scenario leaderboard holds 4 records but only 3
distinct score values; `get_top_scores` reports `total_scores = 4`, the
record count, not the distinct-value count the claim states. -/
theorem total_scores_not_distinct_count :
    ((get_top_scores (some dbScenario) (some "keyA") "L" 4).toOption.map
      (fun p => p.total_scores)) = some 4 ∧
    ((dbScenario.scores.filter (fun s => s.leaderboard_id == "L")).map
      (fun s => s.score)).dedup.length = 3 ∧ (4 : Nat) ≠ 3 := by decide

/-- C8 amended: the total count returned by `get_top_scores` equals the
number of score records on the leaderboard (duplicate values included). -/
theorem get_top_scores_total_eq_record_count
    (db : DB) (k lbId : String) (lim : Nat) (payload : TopPayload)
    (h : get_top_scores (some db) (some k) lbId lim = .ok payload) :
    payload.total_scores =
      (db.scores.filter (fun s => s.leaderboard_id == lbId)).length := by
  unfold get_top_scores withAuth at h
  cases hv : validate_api_key (some db) k with
  | none => simp only [hv] at h; exact Except.noConfusion h
  | some app =>
    simp only [hv] at h
    cases hlb : db.leaderboards.find?
        (fun l => l.id == lbId && l.app_id == app.id) with
    | none => simp only [hlb] at h; exact Except.noConfusion h
    | some lb =>
      simp only [hlb] at h
      injection h with h2
      subst h2
      rfl

/-- C8 amended witness: on the scenario store the returned total is the
record count 4. -/
theorem get_top_scores_total_witness :
    (get_top_scores (some dbScenario) (some "keyA") "L" 4).toOption.map
      (fun p => p.total_scores) =
      some (dbScenario.scores.filter (fun s => s.leaderboard_id == "L")).length := by
  cases hok : get_top_scores (some dbScenario) (some "keyA") "L" 4 with
  | error e =>
    have hsome : (get_top_scores (some dbScenario) (some "keyA") "L" 4).toOption.isSome
        = true := by decide
    rw [hok] at hsome
    simp [Except.toOption] at hsome
  | ok p =>
    have := get_top_scores_total_eq_record_count dbScenario "keyA" "L" 4 p hok
    simp [Except.toOption, this]

/-- C10: a requested `limit` of 0 survives `min(limit, 100)` as 0, which the
store treats as "no limit", so the reply lists every score record of the
leaderboard. -/
theorem get_top_scores_limit_zero_returns_all
    (db : DB) (k lbId : String) (payload : TopPayload)
    (h : get_top_scores (some db) (some k) lbId 0 = .ok payload) :
    payload.scores.length =
      (db.scores.filter (fun s => s.leaderboard_id == lbId)).length := by
  unfold get_top_scores withAuth at h
  cases hv : validate_api_key (some db) k with
  | none => simp only [hv] at h; exact Except.noConfusion h
  | some app =>
    simp only [hv] at h
    cases hlb : db.leaderboards.find?
        (fun l => l.id == lbId && l.app_id == app.id) with
    | none => simp only [hlb] at h; exact Except.noConfusion h
    | some lb =>
      simp only [hlb] at h
      injection h with h2
      subst h2
      show (enrichRanked db 1 (mongoLimit (min 0 100) _)).length = _
      rw [enrichRanked_length]
      show (mongoLimit 0 _).length = _
      unfold mongoLimit
      rw [if_pos rfl, sortScores_length]

/-- C10 witness: a leaderboard with 101 records answers a `limit = 0` request
with all 101 entries, exceeding the documented maximum of 100. -/
theorem get_top_scores_limit_zero_witness :
    ((get_top_scores (some dbMany) (some "keyA") "L" 0).toOption.map
      (fun p => p.scores.length)) = some 101 ∧ 100 < 101 := by
  refine ⟨?_, by decide⟩
  cases hok : get_top_scores (some dbMany) (some "keyA") "L" 0 with
  | error e =>
    have hsome : (get_top_scores (some dbMany) (some "keyA") "L" 0).toOption.isSome
        = true := by decide
    rw [hok] at hsome
    simp [Except.toOption] at hsome
  | ok p =>
    have hlen := get_top_scores_limit_zero_returns_all dbMany "keyA" "L" p hok
    have hcount : (dbMany.scores.filter (fun s => s.leaderboard_id == "L")).length
        = 101 := by decide
    simp [Except.toOption, hlen, hcount]

/-- C7: whenever `get_player_rank` succeeds (the player has a score on the
leaderboard), the nearby window holds between 1 and `2 * nearby + 1` entries
and its rank annotations are strictly increasing. -/
theorem player_rank_window_bounds
    (db : DB) (k lbId pId : String) (nearby : Nat) (payload : RankPayload)
    (h : get_player_rank (some db) (some k) lbId pId nearby = .ok payload) :
    1 ≤ payload.nearby.length ∧ payload.nearby.length ≤ 2 * nearby + 1 ∧
    List.Pairwise (· < ·) (payload.nearby.map RankedEntry.rank) := by
  unfold get_player_rank withAuth at h
  cases hv : validate_api_key (some db) k with
  | none => simp only [hv] at h; exact Except.noConfusion h
  | some app =>
    simp only [hv] at h
    split at h
    · exact Except.noConfusion h
    · split at h
      · exact Except.noConfusion h
      · split at h
        · exact Except.noConfusion h
        · split at h
          · exact Except.noConfusion h
          · rename_i player hp best tail hbest pos hpos
            injection h with h2
            subst h2
            have hposlt : pos < (sortScores (get_leaderboard_sort_order db lbId)
                (db.scores.filter (fun s => s.leaderboard_id == lbId))).length :=
              (List.findIdx?_eq_some_iff_findIdx_eq.mp hpos).1
            refine ⟨?_, ?_, enrichRanked_rank_pairwise db _ _⟩
            · show 1 ≤ (enrichRanked db _ ((List.take _ (List.drop _ _)))).length
              rw [enrichRanked_length, List.length_take, List.length_drop]
              omega
            · show (enrichRanked db _ ((List.take _ (List.drop _ _)))).length ≤ 2 * nearby + 1
              rw [enrichRanked_length, List.length_take, List.length_drop]
              have : min nearby 20 ≤ nearby := Nat.min_le_left _ _
              omega

theorem scoreRel_refl (dir : Int) (a : Score) : scoreRel dir a a := by
  unfold scoreRel
  split
  · exact le_refl _
  · exact le_refl _

theorem sortScores_head_best {dir : Int} {xs : List Score} {best : Score}
    {tail : List Score} (hbest : sortScores dir xs = best :: tail) :
    ∀ y ∈ xs, scoreRel dir best y := by
  intro y hy
  have hs : (sortScores dir xs).Sorted (scoreRel dir) :=
    List.sorted_insertionSort _ xs
  rw [hbest] at hs
  have hmem : y ∈ best :: tail := by
    rw [← hbest]
    exact mem_sortScores.mpr hy
  rcases List.mem_cons.mp hmem with rfl | hmem
  · exact scoreRel_refl dir y
  · exact (List.sorted_cons.mp hs).1 y hmem

theorem mongoLimit_one_eq_cons {ys : List α} {b : α} {t : List α}
    (h : mongoLimit 1 ys = b :: t) : ∃ ys', ys = b :: ys' := by
  unfold mongoLimit at h
  rw [if_neg (by decide)] at h
  cases ys with
  | nil => simp at h
  | cons a as =>
    simp [List.take] at h
    exact ⟨as, by rw [h.1]⟩

/-- Strictly better per the leaderboard direction: strictly greater for
`desc`, strictly lower for `asc` (and any other configured string). -/
def strictlyBetter (so : String) (a b : Int) : Prop :=
  if so = "desc" then b < a else a < b

instance (so : String) (a b : Int) : Decidable (strictlyBetter so a b) :=
  inferInstanceAs (Decidable (if so = "desc" then b < a else a < b))

/-- C3: on success, `get_player_rank` reports `best_score` as one of the
queried player's records on the leaderboard, no record of that player is
strictly better than it (so it is the player's best per direction), and
`rank` equals 1 plus the number of score records on the leaderboard whose
value is strictly better — strictly greater for `desc`, strictly lower
otherwise. -/
theorem player_rank_one_plus_better
    (db : DB) (k lbId pId : String) (nearby : Nat) (payload : RankPayload)
    (lb : Leaderboard)
    (hlb : db.leaderboards.find? (fun l => l.id == lbId) = some lb)
    (h : get_player_rank (some db) (some k) lbId pId nearby = .ok payload) :
    payload.best_score.leaderboard_id = lbId ∧
    payload.best_score.player_id = pId ∧
    payload.best_score ∈ db.scores ∧
    (∀ s ∈ db.scores, s.leaderboard_id = lbId → s.player_id = pId →
      ¬ strictlyBetter lb.sort_order s.score payload.best_score.score) ∧
    payload.rank = 1 + db.scores.countP (fun s =>
      s.leaderboard_id == lbId &&
      decide (strictlyBetter lb.sort_order s.score payload.best_score.score)) := by
  have hdir : get_leaderboard_sort_order db lbId =
      if lb.sort_order == "desc" then -1 else 1 := by
    unfold get_leaderboard_sort_order
    rw [hlb]
  unfold get_player_rank withAuth at h
  cases hv : validate_api_key (some db) k with
  | none => simp only [hv] at h; exact Except.noConfusion h
  | some app =>
    simp only [hv] at h
    split at h
    · exact Except.noConfusion h
    · split at h
      · exact Except.noConfusion h
      · rename_i player hp
        split at h
        · exact Except.noConfusion h
        · rename_i best tail hbest
          split at h
          · exact Except.noConfusion h
          · rename_i pos hpos
            injection h with h2
            subst h2
            dsimp only
            obtain ⟨rest, hsorted⟩ := mongoLimit_one_eq_cons hbest
            have hbb := sortScores_head_best hsorted
            have hbmem : best ∈ db.scores.filter
                (fun s => s.leaderboard_id == lbId && s.player_id == pId) :=
              mem_sortScores.mp (by rw [hsorted]; exact List.mem_cons_self _ _)
            obtain ⟨hbin, hbpred⟩ := List.mem_filter.mp hbmem
            rw [Bool.and_eq_true, beq_iff_eq, beq_iff_eq] at hbpred
            refine ⟨hbpred.1, hbpred.2, hbin, ?_, ?_⟩
            · intro s hs hsl hsp
              have hsf : s ∈ db.scores.filter
                  (fun t => t.leaderboard_id == lbId && t.player_id == pId) :=
                List.mem_filter.mpr ⟨hs, by simp [hsl, hsp]⟩
              have hrel := hbb s hsf
              unfold scoreRel at hrel
              unfold strictlyBetter
              by_cases hso : lb.sort_order = "desc"
              · rw [if_pos hso]
                rw [hdir, if_pos (by simp [hso])] at hrel
                exact not_lt.mpr hrel
              · rw [if_neg hso]
                rw [hdir, if_neg (by simp [hso])] at hrel
                exact not_lt.mpr hrel
            · rw [hdir]
              by_cases hso : lb.sort_order = "desc"
              · rw [if_pos (by simp [hso])]
                simp [strictlyBetter, hso, List.countP_eq_length_filter, Nat.add_comm]
              · rw [if_neg (by simp [hso])]
                simp [strictlyBetter, hso, List.countP_eq_length_filter, Nat.add_comm]

/-- C2 amended: on success, the nearby window of `get_player_rank` is the
contiguous slice `[pos - nearby', pos + nearby']` (with `nearby'` the
20-clamped width) of the full sort of every score record of the leaderboard;
all raw records participate in this ordering — only the window's center
`pos`, the queried player's first position in it, depends on the player. -/
theorem window_over_all_records
    (db : DB) (k lbId pId : String) (nearby : Nat) (payload : RankPayload)
    (h : get_player_rank (some db) (some k) lbId pId nearby = .ok payload) :
    ∃ pos,
      (sortScores (get_leaderboard_sort_order db lbId)
        (db.scores.filter (fun s => s.leaderboard_id == lbId))).findIdx?
          (fun s => s.player_id == pId) = some pos ∧
      payload.nearby.map RankedEntry.score =
        ((sortScores (get_leaderboard_sort_order db lbId)
          (db.scores.filter (fun s => s.leaderboard_id == lbId))).drop
            (pos - min nearby 20)).take
          (min (db.scores.filter (fun s => s.leaderboard_id == lbId)).length
            (pos + min nearby 20 + 1) - (pos - min nearby 20)) := by
  unfold get_player_rank withAuth at h
  cases hv : validate_api_key (some db) k with
  | none => simp only [hv] at h; exact Except.noConfusion h
  | some app =>
    simp only [hv] at h
    split at h
    · exact Except.noConfusion h
    · split at h
      · exact Except.noConfusion h
      · rename_i player hp
        split at h
        · exact Except.noConfusion h
        · rename_i best tail hbest
          split at h
          · exact Except.noConfusion h
          · rename_i pos hpos
            injection h with h2
            subst h2
            refine ⟨pos, hpos, ?_⟩
            dsimp only
            rw [enrichRanked_map_score, sortScores_length]

/-- C7 witness: the theorem applied to the two-score store at `nearby = 1`. -/
theorem player_rank_window_bounds_witness :
    (get_player_rank (some dbMulti) (some "keyA") "L" "pA" 1).toOption.elim False
      (fun p => 1 ≤ p.nearby.length ∧ p.nearby.length ≤ 2 * 1 + 1 ∧
        List.Pairwise (· < ·) (p.nearby.map RankedEntry.rank)) := by
  cases hok : get_player_rank (some dbMulti) (some "keyA") "L" "pA" 1 with
  | error e =>
    have hsome : (get_player_rank (some dbMulti) (some "keyA") "L" "pA" 1).toOption.isSome
        = true := by decide
    rw [hok] at hsome
    simp [Except.toOption] at hsome
  | ok p =>
    simp only [Except.toOption, Option.elim]
    exact player_rank_window_bounds dbMulti "keyA" "L" "pA" 1 p hok

/-- C3 witness: player `pB` (best score 8) is ranked 3 on a leaderboard
holding two strictly better records. -/
theorem player_rank_one_plus_better_witness :
    (get_player_rank (some dbMulti) (some "keyA") "L" "pB" 5).toOption.elim False
      (fun payload =>
        payload.rank = 1 + dbMulti.scores.countP (fun s =>
          s.leaderboard_id == "L" &&
          decide (strictlyBetter lbL.sort_order s.score payload.best_score.score))) := by
  cases hok : get_player_rank (some dbMulti) (some "keyA") "L" "pB" 5 with
  | error e =>
    have hsome : (get_player_rank (some dbMulti) (some "keyA") "L" "pB" 5).toOption.isSome
        = true := by decide
    rw [hok] at hsome
    simp [Except.toOption] at hsome
  | ok p =>
    simp only [Except.toOption, Option.elim]
    exact (player_rank_one_plus_better dbMulti "keyA" "L" "pB" 5 p lbL rfl hok).2.2.2.2

/-- C2 amended witness: the theorem applied to the store where `pA` holds two
scores; `pA` sits at position 0, so the window is the slice from 0. -/
theorem window_over_all_records_witness :
    (get_player_rank (some dbMulti) (some "keyA") "L" "pA" 5).toOption.elim False
      (fun payload => payload.nearby.map RankedEntry.score =
        ((sortScores (get_leaderboard_sort_order dbMulti "L")
          (dbMulti.scores.filter (fun s => s.leaderboard_id == "L"))).drop
            (0 - min 5 20)).take
          (min (dbMulti.scores.filter (fun s => s.leaderboard_id == "L")).length
            (0 + min 5 20 + 1) - (0 - min 5 20))) := by
  cases hok : get_player_rank (some dbMulti) (some "keyA") "L" "pA" 5 with
  | error e =>
    have hsome : (get_player_rank (some dbMulti) (some "keyA") "L" "pA" 5).toOption.isSome
        = true := by decide
    rw [hok] at hsome
    simp [Except.toOption] at hsome
  | ok p =>
    obtain ⟨pos, hpos, heq⟩ := window_over_all_records dbMulti "keyA" "L" "pA" 5 p hok
    have hpos0 : (sortScores (get_leaderboard_sort_order dbMulti "L")
        (dbMulti.scores.filter (fun s => s.leaderboard_id == "L"))).findIdx?
          (fun s => s.player_id == "pA") = some 0 := by decide
    rw [hpos0] at hpos
    injection hpos with hpos
    subst hpos
    simp only [Except.toOption, Option.elim]
    exact heq

/-- Score `s` was submitted under a leaderboard owned by app `a`. -/
def ownedBy (db : DB) (s : Score) (a : App) : Prop :=
  ∃ lb ∈ db.leaderboards, lb.id = s.leaderboard_id ∧ lb.app_id = a.id

theorem cross_lb_absurd {db : DB} {A B : App} {s : Score} {lbB : Leaderboard}
    (hwf : (db.leaderboards.map Leaderboard.id).Nodup)
    (hAB : A.id ≠ B.id)
    (hown : ownedBy db s A)
    (hmem : lbB ∈ db.leaderboards)
    (hid : lbB.id = s.leaderboard_id)
    (happ : lbB.app_id = B.id) : False := by
  obtain ⟨lbA, hlbA, hidA, happA⟩ := hown
  have : lbA = lbB :=
    List.inj_on_of_nodup_map hwf hlbA hmem (by rw [hidA, hid])
  exact hAB (by rw [← happA, this, happ])

/-- C4: with distinct leaderboard ids, a score submitted under a leaderboard
owned by app `A` never appears in any reply of `get_top_scores`,
`get_player_rank` (window or best score) or `get_player_scores` issued with
app `B`'s API key, for any distinct apps `A` and `B` — whatever leaderboard
or player the caller names. -/
theorem tenant_isolation
    (db : DB) (A B : App) (keyB : String) (s : Score)
    (hwf : (db.leaderboards.map Leaderboard.id).Nodup)
    (hAB : A.id ≠ B.id)
    (hown : ownedBy db s A)
    (hkey : validate_api_key (some db) keyB = some B) :
    (∀ lbq lim payload, get_top_scores (some db) (some keyB) lbq lim = .ok payload →
        s ∉ payload.scores.map RankedEntry.score) ∧
    (∀ lbq pq nb payload, get_player_rank (some db) (some keyB) lbq pq nb = .ok payload →
        s ∉ payload.nearby.map RankedEntry.score ∧ payload.best_score ≠ s) ∧
    (∀ pq payload, get_player_scores (some db) (some keyB) pq = .ok payload →
        s ∉ payload.scores.map HistoryEntry.score) := by
  refine ⟨?_, ?_, ?_⟩
  · intro lbq lim payload h hmem
    unfold get_top_scores withAuth at h
    simp only [hkey] at h
    split at h
    · exact Except.noConfusion h
    · rename_i lbB hlbB
      injection h with h2
      subst h2
      dsimp only at hmem
      rw [enrichRanked_map_score] at hmem
      have hs2 := List.mem_filter.mp (mem_sortScores.mp (mem_mongoLimit hmem))
      have hsl : s.leaderboard_id = lbq := by
        have h3 := hs2.2
        rwa [beq_iff_eq] at h3
      have hfind := List.find?_some hlbB
      rw [Bool.and_eq_true, beq_iff_eq, beq_iff_eq] at hfind
      exact cross_lb_absurd hwf hAB hown (List.mem_of_find?_eq_some hlbB)
        (hfind.1.trans hsl.symm) hfind.2
  · intro lbq pq nb payload h
    unfold get_player_rank withAuth at h
    simp only [hkey] at h
    split at h
    · exact Except.noConfusion h
    · rename_i lbB hlbB
      have hfind := List.find?_some hlbB
      rw [Bool.and_eq_true, beq_iff_eq, beq_iff_eq] at hfind
      have hlbmem := List.mem_of_find?_eq_some hlbB
      split at h
      · exact Except.noConfusion h
      · rename_i player hp
        split at h
        · exact Except.noConfusion h
        · rename_i best tail hbest
          split at h
          · exact Except.noConfusion h
          · rename_i pos hpos
            injection h with h2
            subst h2
            dsimp only
            constructor
            · intro hmem
              rw [enrichRanked_map_score] at hmem
              have hs2 := List.mem_filter.mp (mem_sortScores.mp
                (List.mem_of_mem_drop (List.mem_of_mem_take hmem)))
              have hsl : s.leaderboard_id = lbq := by
                have h3 := hs2.2
                rwa [beq_iff_eq] at h3
              exact cross_lb_absurd hwf hAB hown hlbmem
                (hfind.1.trans hsl.symm) hfind.2
            · intro hbs
              obtain ⟨rest, hsorted⟩ := mongoLimit_one_eq_cons hbest
              have hbmem : best ∈ db.scores.filter
                  (fun t => t.leaderboard_id == lbq && t.player_id == pq) :=
                mem_sortScores.mp (by rw [hsorted]; exact List.mem_cons_self _ _)
              obtain ⟨hbin, hbpred⟩ := List.mem_filter.mp hbmem
              rw [Bool.and_eq_true, beq_iff_eq, beq_iff_eq] at hbpred
              have hsl : s.leaderboard_id = lbq := by
                rw [← hbs]
                exact hbpred.1
              exact cross_lb_absurd hwf hAB hown hlbmem
                (hfind.1.trans hsl.symm) hfind.2
  · intro pq payload h hmem
    unfold get_player_scores withAuth at h
    simp only [hkey] at h
    split at h
    · exact Except.noConfusion h
    · rename_i player hp
      injection h with h2
      subst h2
      dsimp only at hmem
      rw [List.map_map] at hmem
      have hmem2 : s ∈ (db.scores.filter (fun t =>
          t.player_id == pq &&
          ((db.leaderboards.filter (fun l => l.app_id == B.id)).map
            (fun l => l.id)).contains t.leaderboard_id)).insertionSort createdDescRel := by
        simpa using hmem
      have hs2 := List.mem_filter.mp ((List.mem_insertionSort _).mp hmem2)
      have hcont := hs2.2
      rw [Bool.and_eq_true] at hcont
      have hidmem : s.leaderboard_id ∈ (db.leaderboards.filter
          (fun l => l.app_id == B.id)).map (fun l => l.id) := by
        have h3 := hcont.2
        simpa [List.contains] using h3
      obtain ⟨lbB, hlbBmem, hlbBid⟩ := List.mem_map.mp hidmem
      obtain ⟨hlbBin, hlbBapp⟩ := List.mem_filter.mp hlbBmem
      rw [beq_iff_eq] at hlbBapp
      exact cross_lb_absurd hwf hAB hown hlbBin hlbBid hlbBapp

/-- C4 witness: app `B` queries its own same-named leaderboard; app `A`'s
score is absent from the reply. -/
theorem tenant_isolation_witness :
    (get_top_scores (some dbTenants) (some "keyB") "LB" 10).toOption.elim False
      (fun payload => crossScore ∉ payload.scores.map RankedEntry.score) := by
  cases hok : get_top_scores (some dbTenants) (some "keyB") "LB" 10 with
  | error e =>
    have hsome : (get_top_scores (some dbTenants) (some "keyB") "LB" 10).toOption.isSome
        = true := by decide
    rw [hok] at hsome
    simp [Except.toOption] at hsome
  | ok p =>
    simp only [Except.toOption, Option.elim]
    exact (tenant_isolation dbTenants appA appB "keyB" crossScore (by decide) (by decide)
      ⟨lbL, by decide, rfl, rfl⟩ rfl).1 "LB" 10 p hok

/-- C9: if registering on a device created player `p`, registering again for
the same app and the same `device_id` (any username) creates nothing: the
reply is 200 with the original `p` and the store is unchanged. -/
theorem register_player_idempotent
    (db : DB) (k : String) (d1 d2 : RegData) (id1 id2 : String) (t1 t2 : Nat)
    (p : Player) (db1 : Option DB)
    (hu2 : d2.username.isSome)
    (hdev : d2.device_id = d1.device_id)
    (h1 : register_player (some db) (some k) (some d1) id1 t1 = (.created p, db1)) :
    register_player db1 (some k) (some d2) id2 t2 = (.already p, db1) := by
  unfold register_player at h1 ⊢
  dsimp only at h1
  cases hv : validate_api_key (some db) k with
  | none => rw [hv] at h1; exact absurd (congrArg Prod.fst h1) (by simp)
  | some app =>
    rw [hv] at h1
    dsimp only at h1
    obtain ⟨u1?, dev1?, av1⟩ := d1
    cases u1? with
    | none => exact absurd (congrArg Prod.fst h1) (by simp)
    | some u1 =>
      cases dev1? with
      | none => exact absurd (congrArg Prod.fst h1) (by simp)
      | some dev =>
        simp only at h1
        by_cases hde : dev = ""
        · rw [if_pos hde] at h1
          exact absurd (congrArg Prod.fst h1) (by simp)
        · rw [if_neg hde] at h1
          cases hfind : db.players.find? (fun q => q.app_id == app.id && q.device_id == dev) with
          | some q =>
            rw [hfind] at h1
            exact absurd (congrArg Prod.fst h1) (by simp)
          | none =>
            rw [hfind] at h1
            dsimp only at h1
            have hc := congrArg Prod.fst h1
            have hdb1 := congrArg Prod.snd h1
            dsimp only at hc hdb1
            injection hc with hc
            subst hc
            subst hdb1
            dsimp only
            unfold validate_api_key at hv ⊢
            dsimp only at hv ⊢
            rw [hv]
            obtain ⟨u2?, dev2?, av2⟩ := d2
            simp only at hu2 hdev
            cases u2? with
            | none => simp at hu2
            | some u2 =>
              subst hdev
              dsimp only
              rw [if_neg hde]
              rw [List.find?_append, hfind]
              simp [List.find?]

/-- First registration body: username `alice` on device `dev1`. -/
def regD : RegData := ⟨some "alice", some "dev1", none⟩

/-- Second registration body: same device, different username. -/
def regD2 : RegData := ⟨some "alice2", some "dev1", some "av"⟩

/-- The player the first registration creates. -/
def regP : Player := ⟨"np1", "A", "dev1", none, "alice", none, 5, none⟩

/-- The store after the first registration. -/
def dbReg1 : DB := ⟨[appA], [], [regP], []⟩

/-- C9 witness: the second registration on device `dev1` returns the player
created by the first and leaves the store untouched. -/
theorem register_player_idempotent_witness :
    register_player (some dbEmpty) (some "keyA") (some regD) "np1" 5 =
      (.created regP, some dbReg1) ∧
    register_player (some dbReg1) (some "keyA") (some regD2) "np2" 9 =
      (.already regP, some dbReg1) :=
  ⟨rfl, register_player_idempotent dbEmpty "keyA" regD regD2 "np1" "np2" 5 9 regP
    (some dbReg1) rfl rfl rfl⟩
